import Mathlib

/-!
Verification development for the two-player artillery game (js_pyrillas_bas).

The definitions below are a shallow embedding of the latest iteration of the
game source (the file embedded here as `part_001`, which `script.js` and
`part_000` are earlier iterations of).  JavaScript numbers are modelled as
real numbers; JS objects become structures; the mutable global crater list
`destroyedCircles` is threaded explicitly; `Math.random`-driven generation
(buildings, gorilla placement) is passed in as oracle parameters where a
function consumes it.
-/

open scoped Classical

noncomputable section

/-! ## Configuration constants (source lines 16-26) -/

def SCREEN_WIDTH : ℝ := 1920
def SCREEN_HEIGHT : ℝ := 1010
def GRAVITY : ℝ := 19.6 * 5
def BULLET_SIZE : ℝ := 10
def DESTROYED_CIRCLE_SIZE : ℝ := 60
def GORILLA_RADIUS : ℝ := 20
def BULLET_SPEED_MULTIPLIER : ℝ := 1.5
def MAX_SHOOT_STRENGTH : ℝ := 350
def MIN_SHOOT_STRENGTH : ℝ := 10
def BULLET_IMMUNITY_DURATION : ℝ := 0.05

/-! ## Geometry: circle-circle intersection area

`compute_circle_intersection_area` is the line-by-line embedding of the JS
function of the same name (source lines 40-93).  The quartic argument of the
square root is factored out as `sqrtArg`, and the raw lens formula (what the
JS computes when no clamp or fallback fires) as `lensArea`. -/

def sqrtArg (r1 r2 d : ℝ) : ℝ :=
  (-d + r1 + r2) * (d + r1 - r2) * (d - r1 + r2) * (d + r1 + r2)

def lensArea (r1 r2 d : ℝ) : ℝ :=
  r1 * r1 * Real.arccos ((d * d + r1 * r1 - r2 * r2) / (2 * d * r1)) +
    r2 * r2 * Real.arccos ((d * d + r2 * r2 - r1 * r1) / (2 * d * r2)) -
    0.5 * Real.sqrt (sqrtArg r1 r2 d)

def compute_circle_intersection_area (r1 r2 d : ℝ) : ℝ :=
  -- JS line 42: if (d >= r1 + r2) return 0
  if r1 + r2 ≤ d then 0
  -- JS line 45: if (d <= Math.abs(r2 - r1)) return PI * min(r1,r2)**2
  else if d ≤ |r2 - r1| then Real.pi * min r1 r2 ^ 2
  else
    -- JS lines 55-63: acos arguments, clamped to [-1, 1]
    let angle1_arg := max (-1) (min 1 ((d * d + r1 * r1 - r2 * r2) / (2 * d * r1)))
    let angle2_arg := max (-1) (min 1 ((d * d + r2 * r2 - r1 * r1) / (2 * d * r2)))
    let term1 := r1 * r1 * Real.arccos angle1_arg
    let term2 := r2 * r2 * Real.arccos angle2_arg
    let s := sqrtArg r1 r2 d
    -- JS lines 71-79: negative radicand fallbacks (JS literals 1e-9 and 1e-4)
    if s < 0 ∧ -(1 / 1000000000) < s then
      -- tolerance branch: radicand treated as 0, so term3 = 0
      let area := term1 + term2 - 0
      -- JS lines 84-90: NaN/negative recovery (NaN cannot arise over ℝ)
      if area < 0 then
        if r1 + r2 ≤ d then 0
        else if d ≤ |r2 - r1| then Real.pi * min r1 r2 ^ 2
        else 0
      else area
    else if s < 0 then
      if |d - (r1 + r2)| < 1 / 10000 then 0
      else if |d - abs (r1 - r2)| < 1 / 10000 then Real.pi * min r1 r2 ^ 2
      else 0
    else
      let area := term1 + term2 - 0.5 * Real.sqrt s
      if area < 0 then
        if r1 + r2 ≤ d then 0
        else if d ≤ |r2 - r1| then Real.pi * min r1 r2 ^ 2
        else 0
      else area

/-! ## Basic facts about the lens region `|r1 - r2| < d < r1 + r2` -/

lemma sqrtArg_eq (r1 r2 d : ℝ) :
    sqrtArg r1 r2 d = 4 * d ^ 2 * r1 ^ 2 - (d ^ 2 + r1 ^ 2 - r2 ^ 2) ^ 2 := by
  unfold sqrtArg; ring

lemma sqrtArg_eq' (r1 r2 d : ℝ) :
    sqrtArg r1 r2 d = 4 * d ^ 2 * r2 ^ 2 - (d ^ 2 + r2 ^ 2 - r1 ^ 2) ^ 2 := by
  unfold sqrtArg; ring

lemma sqrtArg_pos {r1 r2 d : ℝ} (h1 : |r1 - r2| < d) (h2 : d < r1 + r2) :
    0 < sqrtArg r1 r2 d := by
  have habs := abs_lt.1 h1
  have hd0 : 0 ≤ d := le_trans (abs_nonneg _) h1.le
  unfold sqrtArg
  have f1 : 0 < -d + r1 + r2 := by linarith
  have f2 : 0 < d + r1 - r2 := by linarith
  have f3 : 0 < d - r1 + r2 := by linarith
  have f4 : 0 < d + r1 + r2 := by linarith
  positivity

/-- In the lens region both radii and the distance are strictly positive. -/
lemma lens_region_pos {r1 r2 d : ℝ}
    (h1 : |r1 - r2| < d) (h2 : d < r1 + r2) : 0 < r1 ∧ 0 < r2 ∧ 0 < d := by
  have habs := abs_lt.1 (lt_trans h1 h2)
  exact ⟨by linarith [habs.1, habs.2], by linarith [habs.1, habs.2],
    lt_of_le_of_lt (abs_nonneg _) h1⟩

lemma acos_arg1_lt_one {r1 r2 d : ℝ} (hr1 : 0 < r1) (hd : 0 < d)
    (hP : 0 < sqrtArg r1 r2 d) :
    (d * d + r1 * r1 - r2 * r2) / (2 * d * r1) < 1 := by
  have hQ : 0 < (2 * d * r1) ^ 2 - (d * d + r1 * r1 - r2 * r2) ^ 2 := by
    unfold sqrtArg at hP; linarith [hP]
  rw [div_lt_one (by positivity)]
  nlinarith [hQ, mul_pos hd hr1]

lemma neg_one_lt_acos_arg1 {r1 r2 d : ℝ} (hr1 : 0 < r1) (hd : 0 < d)
    (hP : 0 < sqrtArg r1 r2 d) :
    -1 < (d * d + r1 * r1 - r2 * r2) / (2 * d * r1) := by
  have hQ : 0 < (2 * d * r1) ^ 2 - (d * d + r1 * r1 - r2 * r2) ^ 2 := by
    unfold sqrtArg at hP; linarith [hP]
  rw [lt_div_iff₀ (by positivity)]
  nlinarith [hQ, mul_pos hd hr1]

lemma acos_arg2_lt_one {r1 r2 d : ℝ} (hr2 : 0 < r2) (hd : 0 < d)
    (hP : 0 < sqrtArg r1 r2 d) :
    (d * d + r2 * r2 - r1 * r1) / (2 * d * r2) < 1 := by
  have hQ : 0 < (2 * d * r2) ^ 2 - (d * d + r2 * r2 - r1 * r1) ^ 2 := by
    unfold sqrtArg at hP; linarith [hP]
  rw [div_lt_one (by positivity)]
  nlinarith [hQ, mul_pos hd hr2]

lemma neg_one_lt_acos_arg2 {r1 r2 d : ℝ} (hr2 : 0 < r2) (hd : 0 < d)
    (hP : 0 < sqrtArg r1 r2 d) :
    -1 < (d * d + r2 * r2 - r1 * r1) / (2 * d * r2) := by
  have hQ : 0 < (2 * d * r2) ^ 2 - (d * d + r2 * r2 - r1 * r1) ^ 2 := by
    unfold sqrtArg at hP; linarith [hP]
  rw [lt_div_iff₀ (by positivity)]
  nlinarith [hQ, mul_pos hd hr2]

/-- On the open lens region the clamps and fallbacks of the JS code are inert
and the function computes the raw lens formula. -/
lemma intersection_area_eq_lensArea {r1 r2 d : ℝ}
    (h1 : |r2 - r1| < d) (h2 : d < r1 + r2) (hlens : 0 ≤ lensArea r1 r2 d) :
    compute_circle_intersection_area r1 r2 d = lensArea r1 r2 d := by
  have h1' : |r1 - r2| < d := by rwa [abs_sub_comm]
  obtain ⟨hp1, hp2, hpd⟩ := lens_region_pos h1' h2
  have hP : 0 < sqrtArg r1 r2 d := sqrtArg_pos h1' h2
  have c1 : max (-1) (min 1 ((d * d + r1 * r1 - r2 * r2) / (2 * d * r1)))
      = (d * d + r1 * r1 - r2 * r2) / (2 * d * r1) := by
    rw [min_eq_right (acos_arg1_lt_one hp1 hpd hP).le,
      max_eq_right (neg_one_lt_acos_arg1 hp1 hpd hP).le]
  have c2 : max (-1) (min 1 ((d * d + r2 * r2 - r1 * r1) / (2 * d * r2)))
      = (d * d + r2 * r2 - r1 * r1) / (2 * d * r2) := by
    rw [min_eq_right (acos_arg2_lt_one hp2 hpd hP).le,
      max_eq_right (neg_one_lt_acos_arg2 hp2 hpd hP).le]
  have hA : lensArea r1 r2 d =
      r1 * r1 * Real.arccos ((d * d + r1 * r1 - r2 * r2) / (2 * d * r1)) +
        r2 * r2 * Real.arccos ((d * d + r2 * r2 - r1 * r1) / (2 * d * r2)) -
        0.5 * Real.sqrt (sqrtArg r1 r2 d) := rfl
  unfold compute_circle_intersection_area
  rw [if_neg (not_le.mpr h2), if_neg (not_le.mpr h1)]
  simp only [c1, c2]
  rw [if_neg (by rintro ⟨h, -⟩; linarith), if_neg (not_lt.mpr hP.le), if_neg]
  · rw [hA]
  · rw [← hA]; exact not_lt.mpr hlens

/-! ## Derivative of the lens formula

On the open region the lens area has derivative `-sqrt(sqrtArg)/d`, hence it is
strictly decreasing from `pi * min(r1,r2)^2` down to `0`. -/

lemma sqrt_one_sub_sq_arg1 {r1 r2 d : ℝ} (hr1 : 0 < r1) (hd : 0 < d)
    (hP : 0 < sqrtArg r1 r2 d) :
    Real.sqrt (1 - ((d * d + r1 * r1 - r2 * r2) / (2 * d * r1)) ^ 2)
      = Real.sqrt (sqrtArg r1 r2 d) / (2 * d * r1) := by
  have hden : (0:ℝ) < 2 * d * r1 := by positivity
  have key : 1 - ((d * d + r1 * r1 - r2 * r2) / (2 * d * r1)) ^ 2
      = sqrtArg r1 r2 d / (2 * d * r1) ^ 2 := by
    field_simp
    unfold sqrtArg
    ring
  rw [key, Real.sqrt_div hP.le, Real.sqrt_sq hden.le]

lemma sqrt_one_sub_sq_arg2 {r1 r2 d : ℝ} (hr2 : 0 < r2) (hd : 0 < d)
    (hP : 0 < sqrtArg r1 r2 d) :
    Real.sqrt (1 - ((d * d + r2 * r2 - r1 * r1) / (2 * d * r2)) ^ 2)
      = Real.sqrt (sqrtArg r1 r2 d) / (2 * d * r2) := by
  have hden : (0:ℝ) < 2 * d * r2 := by positivity
  have key : 1 - ((d * d + r2 * r2 - r1 * r1) / (2 * d * r2)) ^ 2
      = sqrtArg r1 r2 d / (2 * d * r2) ^ 2 := by
    field_simp
    unfold sqrtArg
    ring
  rw [key, Real.sqrt_div hP.le, Real.sqrt_sq hden.le]

lemma hasDerivAt_lensArea {r1 r2 : ℝ} (hr1 : 0 < r1) (hr2 : 0 < r2) {x : ℝ}
    (h1 : |r1 - r2| < x) (h2 : x < r1 + r2) :
    HasDerivAt (lensArea r1 r2) (-(Real.sqrt (sqrtArg r1 r2 x) / x)) x := by
  have hx : 0 < x := lt_of_le_of_lt (abs_nonneg _) h1
  have hP : 0 < sqrtArg r1 r2 x := sqrtArg_pos h1 h2
  set s := Real.sqrt (sqrtArg r1 r2 x) with hs_def
  have hs2 : s ^ 2 = sqrtArg r1 r2 x := Real.sq_sqrt hP.le
  have hspos : 0 < s := Real.sqrt_pos.mpr hP
  have hden1 : (2 * x * r1) ≠ 0 := by positivity
  have hden2 : (2 * x * r2) ≠ 0 := by positivity
  -- derivative of the first arccos argument
  have hu1 : HasDerivAt (fun d => (d * d + r1 * r1 - r2 * r2) / (2 * d * r1))
      ((x * x - r1 * r1 + r2 * r2) / (2 * x * x * r1)) x := by
    have h := ((((hasDerivAt_id x).mul (hasDerivAt_id x)).add_const
        (r1 * r1)).sub_const (r2 * r2)).div
      (((hasDerivAt_id x).const_mul 2).mul_const r1) hden1
    convert h using 1
    field_simp
    ring
  have hu2 : HasDerivAt (fun d => (d * d + r2 * r2 - r1 * r1) / (2 * d * r2))
      ((x * x - r2 * r2 + r1 * r1) / (2 * x * x * r2)) x := by
    have h := ((((hasDerivAt_id x).mul (hasDerivAt_id x)).add_const
        (r2 * r2)).sub_const (r1 * r1)).div
      (((hasDerivAt_id x).const_mul 2).mul_const r2) hden2
    convert h using 1
    field_simp
    ring
  -- derivative of the two arccos terms
  have ha1 : HasDerivAt
      (fun d => Real.arccos ((d * d + r1 * r1 - r2 * r2) / (2 * d * r1)))
      (-((x * x - r1 * r1 + r2 * r2) / (x * s))) x := by
    have hlt := acos_arg1_lt_one hr1 hx hP
    have hgt := neg_one_lt_acos_arg1 hr1 hx hP
    have h := (Real.hasDerivAt_arccos hgt.ne' hlt.ne).comp x hu1
    simp only [Function.comp] at h
    convert h using 1
    rw [sqrt_one_sub_sq_arg1 hr1 hx hP, ← hs_def]
    field_simp
    ring
  have ha2 : HasDerivAt
      (fun d => Real.arccos ((d * d + r2 * r2 - r1 * r1) / (2 * d * r2)))
      (-((x * x - r2 * r2 + r1 * r1) / (x * s))) x := by
    have hlt := acos_arg2_lt_one hr2 hx hP
    have hgt := neg_one_lt_acos_arg2 hr2 hx hP
    have h := (Real.hasDerivAt_arccos hgt.ne' hlt.ne).comp x hu2
    simp only [Function.comp] at h
    convert h using 1
    rw [sqrt_one_sub_sq_arg2 hr2 hx hP, ← hs_def]
    field_simp
    ring
  -- derivative of the radicand and of its square root
  have hPd : HasDerivAt (fun d => sqrtArg r1 r2 d)
      (4 * x * (r1 * r1) + 4 * x * (r2 * r2) - 4 * (x * x * x)) x := by
    unfold sqrtArg
    have h := (((((hasDerivAt_id x).neg.add_const r1).add_const r2).mul
        (((hasDerivAt_id x).add_const r1).sub_const r2)).mul
        (((hasDerivAt_id x).sub_const r1).add_const r2)).mul
        (((hasDerivAt_id x).add_const r1).add_const r2)
    convert h using 1
    simp only [id_eq]
    ring
  have hsq : HasDerivAt (fun d => Real.sqrt (sqrtArg r1 r2 d))
      ((2 * x * (r1 * r1) + 2 * x * (r2 * r2) - 2 * (x * x * x)) / s) x := by
    have h := (Real.hasDerivAt_sqrt hP.ne').comp x hPd
    simp only [Function.comp] at h
    convert h using 1
    rw [← hs_def]
    field_simp
    ring
  have Hsum := ((ha1.const_mul (r1 * r1)).add (ha2.const_mul (r2 * r2))).sub
    (hsq.const_mul (0.5 : ℝ))
  have hfun : lensArea r1 r2 =
      (fun d => r1 * r1 * Real.arccos ((d * d + r1 * r1 - r2 * r2) / (2 * d * r1)) +
        r2 * r2 * Real.arccos ((d * d + r2 * r2 - r1 * r1) / (2 * d * r2)) -
        0.5 * Real.sqrt (sqrtArg r1 r2 d)) := rfl
  rw [hfun]
  convert Hsum using 1
  have hxne : x ≠ 0 := hx.ne'
  have hsne : s ≠ 0 := hspos.ne'
  have hs2' : s ^ 2 = (-x + r1 + r2) * (x + r1 - r2) * (x - r1 + r2) * (x + r1 + r2) := hs2
  field_simp
  linear_combination (-(x * s)) * hs2'

lemma continuousOn_lensArea {r1 r2 : ℝ} (hr1 : 0 < r1) (hr2 : 0 < r2) :
    ContinuousOn (lensArea r1 r2) (Set.Icc |r1 - r2| (r1 + r2)) := by
  rcases eq_or_ne r1 r2 with heq | hne
  · -- equal radii: the closed interval starts at 0, where the JS expression
    -- 0/0 evaluates (in the real model) to the same value as the limit
    subst heq
    have hg : Continuous (fun d : ℝ =>
        r1 * r1 * Real.arccos (d / (2 * r1)) + r1 * r1 * Real.arccos (d / (2 * r1)) -
          0.5 * Real.sqrt (sqrtArg r1 r1 d)) := by
      have h1 : Continuous (fun d : ℝ => r1 * r1 * Real.arccos (d / (2 * r1))) :=
        continuous_const.mul (Real.continuous_arccos.comp (continuous_id.div_const _))
      have h2 : Continuous (fun d : ℝ => Real.sqrt (sqrtArg r1 r1 d)) := by
        apply Real.continuous_sqrt.comp
        unfold sqrtArg
        fun_prop
      exact (h1.add h1).sub (continuous_const.mul h2)
    apply ContinuousOn.congr hg.continuousOn
    intro d hd
    unfold lensArea
    rcases eq_or_ne d 0 with rfl | hd0
    · norm_num
    · have harg : (d * d + r1 * r1 - r1 * r1) / (2 * d * r1) = d / (2 * r1) := by
        rw [add_sub_cancel_right]
        field_simp
        ring
      rw [harg]
  · have hpos : (0:ℝ) < |r1 - r2| := abs_pos.mpr (sub_ne_zero.mpr hne)
    have hd0 : ∀ d ∈ Set.Icc |r1 - r2| (r1 + r2), d ≠ 0 := fun d hd =>
      (lt_of_lt_of_le hpos hd.1).ne'
    have harc1 : ContinuousOn
        (fun d => Real.arccos ((d * d + r1 * r1 - r2 * r2) / (2 * d * r1)))
        (Set.Icc |r1 - r2| (r1 + r2)) := by
      apply Real.continuous_arccos.comp_continuousOn
      apply ContinuousOn.div (by fun_prop) (by fun_prop)
      intro d hd
      have := hd0 d hd
      positivity
    have harc2 : ContinuousOn
        (fun d => Real.arccos ((d * d + r2 * r2 - r1 * r1) / (2 * d * r2)))
        (Set.Icc |r1 - r2| (r1 + r2)) := by
      apply Real.continuous_arccos.comp_continuousOn
      apply ContinuousOn.div (by fun_prop) (by fun_prop)
      intro d hd
      have := hd0 d hd
      positivity
    have hsq : Continuous (fun d : ℝ => Real.sqrt (sqrtArg r1 r2 d)) := by
      apply Real.continuous_sqrt.comp
      unfold sqrtArg
      fun_prop
    exact ((continuousOn_const.mul harc1).add (continuousOn_const.mul harc2)).sub
      (continuousOn_const.mul hsq.continuousOn)

lemma strictAntiOn_lensArea {r1 r2 : ℝ} (hr1 : 0 < r1) (hr2 : 0 < r2) :
    StrictAntiOn (lensArea r1 r2) (Set.Icc |r1 - r2| (r1 + r2)) := by
  apply strictAntiOn_of_deriv_neg (convex_Icc _ _) (continuousOn_lensArea hr1 hr2)
  intro x hx
  rw [interior_Icc] at hx
  rw [(hasDerivAt_lensArea hr1 hr2 hx.1 hx.2).deriv]
  have hP := sqrtArg_pos hx.1 hx.2
  have hxpos : 0 < x := lt_of_le_of_lt (abs_nonneg _) hx.1
  exact neg_lt_zero.mpr (div_pos (Real.sqrt_pos.mpr hP) hxpos)

lemma lensArea_at_sum {r1 r2 : ℝ} (hr1 : 0 < r1) (hr2 : 0 < r2) :
    lensArea r1 r2 (r1 + r2) = 0 := by
  unfold lensArea
  have harg1 : ((r1 + r2) * (r1 + r2) + r1 * r1 - r2 * r2) / (2 * (r1 + r2) * r1) = 1 := by
    rw [show (r1 + r2) * (r1 + r2) + r1 * r1 - r2 * r2 = 2 * (r1 + r2) * r1 by ring]
    exact div_self (by positivity)
  have harg2 : ((r1 + r2) * (r1 + r2) + r2 * r2 - r1 * r1) / (2 * (r1 + r2) * r2) = 1 := by
    rw [show (r1 + r2) * (r1 + r2) + r2 * r2 - r1 * r1 = 2 * (r1 + r2) * r2 by ring]
    exact div_self (by positivity)
  have hsa : sqrtArg r1 r2 (r1 + r2) = 0 := by unfold sqrtArg; ring
  rw [harg1, harg2, hsa, Real.arccos_one, Real.sqrt_zero]
  ring

lemma lensArea_at_diff {r1 r2 : ℝ} (hr1 : 0 < r1) (hr2 : 0 < r2) :
    lensArea r1 r2 |r1 - r2| = Real.pi * min r1 r2 ^ 2 := by
  rcases lt_trichotomy r1 r2 with h | h | h
  · rw [abs_of_neg (by linarith : r1 - r2 < 0), neg_sub]
    unfold lensArea
    have hne : (0:ℝ) < r2 - r1 := by linarith
    have e1 : ((r2 - r1) * (r2 - r1) + r1 * r1 - r2 * r2) / (2 * (r2 - r1) * r1) = -1 := by
      rw [div_eq_iff (by positivity)]; ring
    have e2 : ((r2 - r1) * (r2 - r1) + r2 * r2 - r1 * r1) / (2 * (r2 - r1) * r2) = 1 := by
      rw [div_eq_iff (by positivity)]; ring
    have hsa : sqrtArg r1 r2 (r2 - r1) = 0 := by unfold sqrtArg; ring
    rw [e1, e2, hsa, Real.arccos_neg_one, Real.arccos_one, Real.sqrt_zero,
      min_eq_left h.le]
    ring
  · subst h
    simp only [sub_self, abs_zero, min_self]
    unfold lensArea
    have hsa : sqrtArg r1 r1 0 = 0 := by unfold sqrtArg; ring
    norm_num [hsa, Real.arccos_zero]
    ring
  · rw [abs_of_pos (by linarith : 0 < r1 - r2)]
    unfold lensArea
    have hne : (0:ℝ) < r1 - r2 := by linarith
    have e1 : ((r1 - r2) * (r1 - r2) + r1 * r1 - r2 * r2) / (2 * (r1 - r2) * r1) = 1 := by
      rw [div_eq_iff (by positivity)]; ring
    have e2 : ((r1 - r2) * (r1 - r2) + r2 * r2 - r1 * r1) / (2 * (r1 - r2) * r2) = -1 := by
      rw [div_eq_iff (by positivity)]; ring
    have hsa : sqrtArg r1 r2 (r1 - r2) = 0 := by unfold sqrtArg; ring
    rw [e1, e2, hsa, Real.arccos_neg_one, Real.arccos_one, Real.sqrt_zero,
      min_eq_right h.le]
    ring

lemma lensArea_pos {r1 r2 d : ℝ} (h1 : |r1 - r2| < d) (h2 : d < r1 + r2) :
    0 < lensArea r1 r2 d := by
  obtain ⟨hr1, hr2, hd⟩ := lens_region_pos h1 h2
  have hmem1 : d ∈ Set.Icc |r1 - r2| (r1 + r2) := ⟨h1.le, h2.le⟩
  have hmem2 : r1 + r2 ∈ Set.Icc |r1 - r2| (r1 + r2) := ⟨(lt_trans h1 h2).le, le_refl _⟩
  have := strictAntiOn_lensArea hr1 hr2 hmem1 hmem2 h2
  rwa [lensArea_at_sum hr1 hr2] at this

lemma lensArea_lt_min_area {r1 r2 d : ℝ} (h1 : |r1 - r2| < d) (h2 : d < r1 + r2) :
    lensArea r1 r2 d < Real.pi * min r1 r2 ^ 2 := by
  obtain ⟨hr1, hr2, hd⟩ := lens_region_pos h1 h2
  have hmem0 : |r1 - r2| ∈ Set.Icc |r1 - r2| (r1 + r2) :=
    ⟨le_refl _, (lt_trans h1 h2).le⟩
  have hmem1 : d ∈ Set.Icc |r1 - r2| (r1 + r2) := ⟨h1.le, h2.le⟩
  have := strictAntiOn_lensArea hr1 hr2 hmem0 hmem1 h1
  rwa [lensArea_at_diff hr1 hr2] at this

/-! ## Range, exactness and monotonicity of the intersection area -/

lemma area_nonneg_and_le (r1 r2 d : ℝ) :
    0 ≤ compute_circle_intersection_area r1 r2 d ∧
      compute_circle_intersection_area r1 r2 d ≤ Real.pi * min r1 r2 ^ 2 := by
  by_cases hb1 : r1 + r2 ≤ d
  · unfold compute_circle_intersection_area
    rw [if_pos hb1]
    exact ⟨le_refl 0, mul_nonneg Real.pi_pos.le (sq_nonneg _)⟩
  · by_cases hb2 : d ≤ |r2 - r1|
    · unfold compute_circle_intersection_area
      rw [if_neg hb1, if_pos hb2]
      exact ⟨mul_nonneg Real.pi_pos.le (sq_nonneg _), le_refl _⟩
    · push_neg at hb1 hb2
      have h1 : |r1 - r2| < d := by rwa [abs_sub_comm]
      have hlens := lensArea_pos h1 hb1
      rw [intersection_area_eq_lensArea hb2 hb1 hlens.le]
      exact ⟨hlens.le, (lensArea_lt_min_area h1 hb1).le⟩

lemma min_radius_pos_iff {r1 r2 : ℝ} (hmin : 0 < min r1 r2) :
    0 < r1 ∧ 0 < r2 := lt_min_iff.mp hmin

lemma abs_diff_lt_add {r1 r2 : ℝ} (hr1 : 0 < r1) (hr2 : 0 < r2) :
    |r1 - r2| < r1 + r2 := by
  rw [abs_lt]; constructor <;> linarith

lemma area_eq_zero_iff {r1 r2 d : ℝ} (hmin : 0 < min r1 r2) :
    compute_circle_intersection_area r1 r2 d = 0 ↔ r1 + r2 ≤ d := by
  obtain ⟨hr1, hr2⟩ := min_radius_pos_iff hmin
  constructor
  · intro hz
    by_contra hb1
    by_cases hb2 : d ≤ |r2 - r1|
    · have : compute_circle_intersection_area r1 r2 d = Real.pi * min r1 r2 ^ 2 := by
        unfold compute_circle_intersection_area
        rw [if_neg hb1, if_pos hb2]
      rw [this] at hz
      have : (0:ℝ) < Real.pi * min r1 r2 ^ 2 := by positivity
      linarith
    · push_neg at hb1 hb2
      have h1 : |r1 - r2| < d := by rwa [abs_sub_comm]
      have hlens := lensArea_pos h1 hb1
      rw [intersection_area_eq_lensArea hb2 hb1 hlens.le] at hz
      linarith
  · intro h
    unfold compute_circle_intersection_area
    rw [if_pos h]

lemma area_eq_min_iff {r1 r2 d : ℝ} (hmin : 0 < min r1 r2) :
    compute_circle_intersection_area r1 r2 d = Real.pi * min r1 r2 ^ 2 ↔
      d ≤ |r1 - r2| := by
  obtain ⟨hr1, hr2⟩ := min_radius_pos_iff hmin
  have hmpos : (0:ℝ) < Real.pi * min r1 r2 ^ 2 := by positivity
  constructor
  · intro hz
    by_cases hb1 : r1 + r2 ≤ d
    · exfalso
      have : compute_circle_intersection_area r1 r2 d = 0 := by
        unfold compute_circle_intersection_area; rw [if_pos hb1]
      rw [this] at hz; linarith
    · by_cases hb2 : d ≤ |r2 - r1|
      · rwa [abs_sub_comm]
      · exfalso
        push_neg at hb1 hb2
        have h1 : |r1 - r2| < d := by rwa [abs_sub_comm]
        have hlens := lensArea_pos h1 hb1
        rw [intersection_area_eq_lensArea hb2 hb1 hlens.le] at hz
        have := lensArea_lt_min_area h1 hb1
        linarith
  · intro h
    have h' : d ≤ |r2 - r1| := by rwa [abs_sub_comm] at h
    have hb1 : ¬ (r1 + r2 ≤ d) := by
      push_neg
      exact lt_of_le_of_lt h (abs_diff_lt_add hr1 hr2)
    unfold compute_circle_intersection_area
    rw [if_neg hb1, if_pos h']

/-- The intersection area is monotonically non-increasing in the distance. -/
lemma area_antitoneOn (r1 r2 : ℝ) :
    AntitoneOn (fun d => compute_circle_intersection_area r1 r2 d) (Set.Ici 0) := by
  intro a _ b _ hab
  simp only
  by_cases hb1 : r1 + r2 ≤ b
  · have : compute_circle_intersection_area r1 r2 b = 0 := by
      unfold compute_circle_intersection_area; rw [if_pos hb1]
    rw [this]
    exact (area_nonneg_and_le r1 r2 a).1
  · by_cases hb2 : b ≤ |r2 - r1|
    · have ha1 : ¬ (r1 + r2 ≤ a) := by push_neg at hb1 ⊢; linarith
      have ha2 : a ≤ |r2 - r1| := le_trans hab hb2
      have e1 : compute_circle_intersection_area r1 r2 b = Real.pi * min r1 r2 ^ 2 := by
        unfold compute_circle_intersection_area; rw [if_neg hb1, if_pos hb2]
      have e2 : compute_circle_intersection_area r1 r2 a = Real.pi * min r1 r2 ^ 2 := by
        unfold compute_circle_intersection_area; rw [if_neg ha1, if_pos ha2]
      rw [e1, e2]
    · push_neg at hb1 hb2
      have h1b : |r1 - r2| < b := by rwa [abs_sub_comm]
      obtain ⟨hr1, hr2, _⟩ := lens_region_pos h1b hb1
      have hlensb := lensArea_pos h1b hb1
      have eb : compute_circle_intersection_area r1 r2 b = lensArea r1 r2 b :=
        intersection_area_eq_lensArea hb2 hb1 hlensb.le
      by_cases ha2 : a ≤ |r2 - r1|
      · have ha1 : ¬ (r1 + r2 ≤ a) := by
          push_neg
          calc a ≤ |r2 - r1| := ha2
          _ = |r1 - r2| := abs_sub_comm _ _
          _ < r1 + r2 := abs_diff_lt_add hr1 hr2
        have ea : compute_circle_intersection_area r1 r2 a = Real.pi * min r1 r2 ^ 2 := by
          unfold compute_circle_intersection_area; rw [if_neg ha1, if_pos ha2]
        rw [eb, ea]
        exact (lensArea_lt_min_area h1b hb1).le
      · push_neg at ha2
        have h1a : |r1 - r2| < a := by rwa [abs_sub_comm]
        have ha1 : a < r1 + r2 := lt_of_le_of_lt hab hb1
        have hlensa := lensArea_pos h1a ha1
        have ea : compute_circle_intersection_area r1 r2 a = lensArea r1 r2 a :=
          intersection_area_eq_lensArea ha2 ha1 hlensa.le
        rw [eb, ea]
        exact (strictAntiOn_lensArea hr1 hr2).antitoneOn ⟨h1a.le, ha1.le⟩
          ⟨h1b.le, hb1.le⟩ hab

/-! ## Damage mapping (source lines 96-131) -/

structure Pt where
  x : ℝ
  y : ℝ

def compute_explosion_damage (explosion_center : Pt) (explosion_radius : ℝ)
    (player_center : Pt) (player_radius : ℝ) : ℝ :=
  -- JS line 97: Math.hypot
  let d := Real.sqrt ((explosion_center.x - player_center.x) ^ 2 +
    (explosion_center.y - player_center.y) ^ 2)
  let intersection_area := compute_circle_intersection_area player_radius explosion_radius d
  -- JS lines 100-110 (literal 1e-6; the two nested distance tests collapse to
  -- a conjunction because each non-20 exit returns 0)
  if intersection_area < 1 / 1000000 then
    if d < explosion_radius + player_radius + 1 ∧
        |d - (explosion_radius + player_radius)| < 5 then 20
    else 0
  else
    let player_area := Real.pi * player_radius ^ 2
    if player_area < 1 / 1000000 then 90
    else
      let fraction := max 0 (min 1 (intersection_area / player_area))
      let damage := max 0 (min 90 (20 + fraction * 70))
      -- JS lines 124-127 (literal 1e-4)
      if explosion_radius + player_radius + 1 / 10000 < d then 0 else damage

lemma damage_mem (ec : Pt) (er : ℝ) (pc : Pt) (pr : ℝ) :
    0 ≤ compute_explosion_damage ec er pc pr ∧
      compute_explosion_damage ec er pc pr ≤ 90 := by
  unfold compute_explosion_damage
  dsimp only
  split_ifs <;> exact ⟨by norm_num, by norm_num⟩

/-! ## Entities (Building, Gorilla, Bullet; source lines 217-450)

Only the simulation-relevant fields are kept: colors, window states and
drawing are presentation.  `destroyedCircles` is threaded as an explicit
`List DestroyedCircle` argument. -/

structure Rect where
  x : ℝ
  y : ℝ
  width : ℝ
  height : ℝ

structure DestroyedCircle where
  x : ℝ
  y : ℝ
  radius : ℝ

structure Building where
  x : ℝ
  width : ℝ
  height : ℝ

structure Gorilla where
  x : ℝ
  y : ℝ
  health : ℝ
  radius : ℝ

/-- The `Gorilla` constructor (source lines 289-294): health starts at 100
and the radius is the configured constant. -/
def Gorilla.make (x y : ℝ) : Gorilla :=
  { x := x, y := y, health := 100, radius := GORILLA_RADIUS }

structure Bullet where
  x : ℝ
  y : ℝ
  vx : ℝ
  vy : ℝ
  timeAlive : ℝ
  firingGorillaIndex : Fin 2

/-- The `Bullet` constructor (source lines 323-334). -/
def Bullet.make (x y angle strength : ℝ) (firingGorillaIndex : Fin 2) : Bullet :=
  let radAngle := angle * Real.pi / 180
  let initialSpeed := strength * BULLET_SPEED_MULTIPLIER
  { x := x, y := y,
    vx := initialSpeed * Real.cos radAngle,
    vy := -initialSpeed * Real.sin radAngle,
    timeAlive := 0,
    firingGorillaIndex := firingGorillaIndex }

/-- `Bullet.update` (source lines 336-342): the new position uses the old
velocity, gravity is applied afterwards. -/
def Bullet.update (dt : ℝ) (b : Bullet) : Bullet :=
  { b with
    timeAlive := b.timeAlive + dt,
    x := b.x + b.vx * dt,
    y := b.y + b.vy * dt,
    vy := b.vy + GRAVITY * dt }

def Building.get_rect (bld : Building) : Rect :=
  { x := bld.x, y := SCREEN_HEIGHT - bld.height, width := bld.width, height := bld.height }

def Gorilla.get_rect (g : Gorilla) : Rect :=
  { x := g.x - g.radius, y := g.y - g.radius, width := g.radius * 2, height := g.radius * 2 }

def bulletRect (b : Bullet) : Rect :=
  { x := b.x - BULLET_SIZE / 2, y := b.y - BULLET_SIZE / 2,
    width := BULLET_SIZE, height := BULLET_SIZE }

/-- `rectOverlap` (source lines 445-450). -/
def rectOverlap (rect1 rect2 : Rect) : Prop :=
  rect1.x < rect2.x + rect2.width ∧ rect1.x + rect1.width > rect2.x ∧
    rect1.y < rect2.y + rect2.height ∧ rect1.y + rect1.height > rect2.y

/-- `Building.is_point_destroyed` (source lines 268-276): the point lies in
some recorded crater (squared-distance test). -/
def is_point_destroyed (dc : List DestroyedCircle) (x y : ℝ) : Prop :=
  ∃ c ∈ dc, (x - c.x) ^ 2 + (y - c.y) ^ 2 ≤ c.radius ^ 2

/-! ## Collision resolution (`Bullet.check_collision`, source lines 350-441)

The JS function both returns a hit record and pushes craters onto the global
list, so the embedding returns `Option Hit × List DestroyedCircle`.  The gorilla loop
over the two-element array is unrolled through `gorillaHit`; the building loop
becomes `buildingLoop`, carrying the list index so that the reference
comparison `building === firingBuilding` can be modelled as index equality. -/

inductive HitKind
  | direct (targetIndex : Fin 2)
  | building
  | ground
  | wall

structure Hit where
  kind : HitKind
  x : ℝ
  y : ℝ

/-- One step of the gorilla loop (source lines 375-396) for gorilla `i`:
`none` means the loop continues. -/
def gorillaHit (b : Bullet) (i : Fin 2) (g : Gorilla) (isImmune : Prop)
    (dc : List DestroyedCircle) : Option (Hit × List DestroyedCircle) :=
  if rectOverlap (bulletRect b) g.get_rect then
    if i = b.firingGorillaIndex ∧ isImmune then
      none
    else if i = b.firingGorillaIndex then
      some (⟨.direct i, b.x, b.y⟩, dc ++ [⟨b.x, b.y, DESTROYED_CIRCLE_SIZE⟩])
    else
      some (⟨.direct i, b.x, b.y⟩, dc)
  else none

/-- Index of the building the firing gorilla stands on (source lines 401-414):
the first building whose horizontal span contains the gorilla's x and whose
rooftop is within `1.5 * GORILLA_RADIUS` of the gorilla's y. -/
def firingBuildingIdx (gx gy : ℝ) : List Building → Option ℕ
  | [] => none
  | bld :: rest =>
    if bld.x ≤ gx ∧ gx < bld.x + bld.width ∧
        |SCREEN_HEIGHT - bld.height - gy| < GORILLA_RADIUS * 1.5 then
      some 0
    else (firingBuildingIdx gx gy rest).map (· + 1)

/-- The building loop (source lines 417-438), `idx` being the position of the
head of the remaining list in the original buildings list. -/
def buildingLoop (b : Bullet) (isImmune : Prop) (fIdx : Option ℕ) (dc : List DestroyedCircle) :
    List Building → ℕ → Option Hit × List DestroyedCircle
  | [], _ => (none, dc)
  | bld :: rest, idx =>
    if rectOverlap (bulletRect b) bld.get_rect then
      -- narrow phase (source line 422)
      if bld.get_rect.y ≤ b.y ∧ b.y ≤ SCREEN_HEIGHT then
        if isImmune ∧ fIdx = some idx then
          buildingLoop b isImmune fIdx dc rest (idx + 1)
        else if ¬ is_point_destroyed dc b.x b.y then
          (some ⟨.building, b.x, b.y⟩, dc ++ [⟨b.x, b.y, DESTROYED_CIRCLE_SIZE⟩])
        else
          buildingLoop b isImmune fIdx dc rest (idx + 1)
      else
        buildingLoop b isImmune fIdx dc rest (idx + 1)
    else
      buildingLoop b isImmune fIdx dc rest (idx + 1)

def check_collision (b : Bullet) (buildings : List Building)
    (gorillas : Fin 2 → Gorilla) (dc : List DestroyedCircle) : Option Hit × List DestroyedCircle :=
  let isImmune := b.timeAlive < BULLET_IMMUNITY_DURATION
  -- ground and wall checks first (source lines 366-372)
  if SCREEN_HEIGHT < b.y then (some ⟨.ground, b.x, SCREEN_HEIGHT⟩, dc)
  else if b.x < 0 ∨ SCREEN_WIDTH < b.x then (some ⟨.wall, b.x, b.y⟩, dc)
  else
    match gorillaHit b 0 (gorillas 0) isImmune dc with
    | some r => (some r.1, r.2)
    | none =>
      match gorillaHit b 1 (gorillas 1) isImmune dc with
      | some r => (some r.1, r.2)
      | none =>
        let fIdx := if isImmune then
            firingBuildingIdx (gorillas b.firingGorillaIndex).x
              (gorillas b.firingGorillaIndex).y buildings
          else none
        buildingLoop b isImmune fIdx dc buildings 0

/-! ## Game state and hit handling (`Game`, source lines 453-1050)

Only simulation state is kept (messages, timers, blinking windows and drawing
are presentation).  `destroyedCircles` lives in the state as `destroyed`.
The `setTimeout(() => this.reset_game(winner), 3000)` one-shot is modelled by
the `pendingReset` field: `some w?` means a reset with winner argument `w?`
has been scheduled. -/

structure GameState where
  buildings : List Building
  gorillas : Fin 2 → Gorilla
  bullet : Option Bullet
  turn : Fin 2
  angles : Fin 2 → ℝ
  strengths : Fin 2 → ℝ
  scores : Fin 2 → ℕ
  shots_fired : Fin 2 → ℕ
  destroyed : List DestroyedCircle
  gameOver : Bool
  pendingReset : Option (Option (Fin 2))

/-- Damage application part of `Game.handle_bullet_hit` (source lines 672-707).
In the `direct` case the source separates `targetIndex === this.turn` from the
opponent case, but both subtract the same fatal 100. -/
def applyHitDamage (hit : Hit) (s : GameState) : GameState :=
  match hit.kind with
  | .direct target =>
    let g := s.gorillas target
    let g' : Gorilla := { g with health := g.health - 100 }
    { s with gorillas := Function.update s.gorillas target g' }
  | .building =>
    -- explosion pass over both gorillas; a dead gorilla is skipped and
    -- damage is only applied when strictly positive
    { s with gorillas := fun idx =>
        let g := s.gorillas idx
        if g.health ≤ 0 then g
        else
          let damage := compute_explosion_damage ⟨hit.x, hit.y⟩ DESTROYED_CIRCLE_SIZE
            ⟨g.x, g.y⟩ g.radius
          if 0 < damage then { g with health := g.health - damage } else g }
  | .ground =>
    { s with destroyed := s.destroyed ++ [⟨hit.x, SCREEN_HEIGHT, DESTROYED_CIRCLE_SIZE / 2⟩] }
  | .wall => s

/-- Health clamp of `Game.handle_bullet_hit` (source line 710). -/
def clampHealths (s : GameState) : GameState :=
  { s with gorillas := fun i =>
      let g := s.gorillas i
      if g.health < 0 then { g with health := 0 } else g }

/-- `Game.handle_bullet_hit` (source lines 667-758).  The JS sentinel
`winner = -1` with the dead `console.error` fallback is modelled by an
`Option (Fin 2)`; on round end the winner's score is incremented, updates are
paused and a reset with this winner is scheduled, otherwise the turn passes
to the other player. -/
def handle_bullet_hit (hit : Hit) (s : GameState) : GameState :=
  let s1 := clampHealths (applyHitDamage hit s)
  let p1_dead := (s1.gorillas 0).health ≤ 0
  let p2_dead := (s1.gorillas 1).health ≤ 0
  let winner : Option (Fin 2) :=
    if p1_dead ∧ p2_dead then some (1 - s1.turn)
    else if p1_dead then some 1
    else if p2_dead then some 0
    else none
  match winner with
  | some w =>
    { s1 with
      scores := Function.update s1.scores w (s1.scores w + 1),
      gameOver := true,
      pendingReset := some (some w) }
  | none => { s1 with turn := 1 - s1.turn }

/-- `Game.shoot` (source lines 590-619): a no-op while a bullet is in flight
or the round is over; otherwise spawns the bullet at an offset from the firer
along the aim direction and increments the firer's shot counter. -/
def shoot (s : GameState) : GameState :=
  if s.bullet.isSome ∨ s.gameOver = true then s
  else
    let g := s.gorillas s.turn
    let angle := s.angles s.turn
    let strength := s.strengths s.turn
    let radAngle := angle * Real.pi / 180
    let startOffset := GORILLA_RADIUS + BULLET_SIZE / 2 + 5
    let bulletX := g.x + startOffset * Real.cos radAngle
    let bulletY := g.y + -startOffset * Real.sin radAngle
    { s with
      bullet := some (Bullet.make bulletX bulletY angle strength s.turn),
      shots_fired := Function.update s.shots_fired s.turn (s.shots_fired s.turn + 1) }

/-- The bullet portion of `Game.update` (source lines 622-636); sky, input
handling and window blinking are presentation.  When the collision resolves,
the hit is handled and the bullet is removed in the same tick. -/
def update_bullet_step (dt : ℝ) (s : GameState) : GameState :=
  if s.gameOver = true then s
  else
    match s.bullet with
    | none => s
    | some b =>
      let b' := b.update dt
      match check_collision b' s.buildings s.gorillas s.destroyed with
      | (some hit, dc') =>
        { handle_bullet_hit hit { s with destroyed := dc', bullet := some b' } with
          bullet := none }
      | (none, dc') => { s with bullet := some b', destroyed := dc' }

/-- `Game.reset_game` (source lines 1006-1049).  The regenerated skyline and
gorilla placement are `Math.random`-driven, so they are oracle parameters;
the reset clears craters and the bullet, restores health, angles and
strengths, keeps scores and shot counts, and gives the first turn of the new
round to the loser (`1 - winner`), defaulting to player 0 when no valid
winner index was supplied. -/
def reset_game (winnerIndex : Option (Fin 2)) (newBuildings : List Building)
    (newGorillas : Fin 2 → Gorilla) (s : GameState) : GameState :=
  { buildings := newBuildings
    gorillas := fun i => { newGorillas i with health := 100 }
    bullet := none
    turn := match winnerIndex with
      | some w => 1 - w
      | none => 0
    angles := fun i => if i = 0 then 45 else 135
    strengths := fun _ => 100
    scores := s.scores
    shots_fired := s.shots_fired
    destroyed := []
    gameOver := false
    pendingReset := none }

/-! ## Support lemmas about the state transformers -/

lemma fin_two_eq_zero_or_one : ∀ i : Fin 2, i = 0 ∨ i = 1 := by decide

lemma fin_two_one_sub_one_sub : ∀ i : Fin 2, 1 - (1 - i) = i := by decide

lemma fin_two_one_sub_ne : ∀ i : Fin 2, 1 - i ≠ i := by decide

lemma applyHitDamage_turn (hit : Hit) (s : GameState) :
    (applyHitDamage hit s).turn = s.turn := by
  obtain ⟨k, x, y⟩ := hit
  cases k <;> rfl

lemma applyHitDamage_scores (hit : Hit) (s : GameState) :
    (applyHitDamage hit s).scores = s.scores := by
  obtain ⟨k, x, y⟩ := hit
  cases k <;> rfl

lemma applyHitDamage_destroyed_of_direct (i : Fin 2) (x y : ℝ) (s : GameState) :
    (applyHitDamage ⟨.direct i, x, y⟩ s).destroyed = s.destroyed := rfl

lemma clampHealths_health (s : GameState) (i : Fin 2) :
    ((clampHealths s).gorillas i).health = max 0 ((s.gorillas i).health) := by
  unfold clampHealths
  dsimp only
  split_ifs with h
  · exact (max_eq_left h.le).symm
  · exact (max_eq_right (not_lt.mp h)).symm

lemma clampHealths_keeps (s : GameState) (i : Fin 2)
    (h : 0 ≤ (s.gorillas i).health) :
    (clampHealths s).gorillas i = s.gorillas i := by
  unfold clampHealths
  dsimp only
  rw [if_neg (not_lt.mpr h)]

/-- Neither outcome of the winner check touches the gorillas computed by the
damage-and-clamp phase. -/
lemma handle_bullet_hit_gorillas (hit : Hit) (s : GameState) :
    (handle_bullet_hit hit s).gorillas =
      (clampHealths (applyHitDamage hit s)).gorillas := by
  unfold handle_bullet_hit
  dsimp only
  split <;> rfl

lemma handle_bullet_hit_destroyed (hit : Hit) (s : GameState) :
    (handle_bullet_hit hit s).destroyed = (applyHitDamage hit s).destroyed := by
  unfold handle_bullet_hit
  dsimp only
  split <;> rfl

/-- When, after damage application, both gorillas are at or below 0 health,
the non-shooter wins: the score at `1 - turn` is bumped, updates pause, and a
reset with winner `1 - turn` is scheduled. -/
lemma handle_bullet_hit_both_dead (hit : Hit) (s : GameState)
    (h0 : ((applyHitDamage hit s).gorillas 0).health ≤ 0)
    (h1 : ((applyHitDamage hit s).gorillas 1).health ≤ 0) :
    (handle_bullet_hit hit s).pendingReset = some (some (1 - s.turn)) ∧
    (handle_bullet_hit hit s).scores =
      Function.update s.scores (1 - s.turn) (s.scores (1 - s.turn) + 1) ∧
    (handle_bullet_hit hit s).gameOver = true := by
  have hc0 : ((clampHealths (applyHitDamage hit s)).gorillas 0).health ≤ 0 := by
    rw [clampHealths_health]
    exact max_le (le_refl 0) h0
  have hc1 : ((clampHealths (applyHitDamage hit s)).gorillas 1).health ≤ 0 := by
    rw [clampHealths_health]
    exact max_le (le_refl 0) h1
  have hturn : (clampHealths (applyHitDamage hit s)).turn = s.turn :=
    applyHitDamage_turn hit s
  have hscores : (clampHealths (applyHitDamage hit s)).scores = s.scores :=
    applyHitDamage_scores hit s
  unfold handle_bullet_hit
  dsimp only
  rw [if_pos ⟨hc0, hc1⟩, hturn, hscores]
  exact ⟨rfl, rfl, rfl⟩

/-! ## Claims -/

/-- C1 counterexample: at `r1 = 0, r2 = 5, d = 3` the function returns 0 even
though `d < r1 + r2`, refuting the claim's "returns 0 exactly when
d ≥ r1 + r2" (and, likewise, `0 = π·min²` here although `d > |r1 - r2|`). -/
theorem C1_counterexample :
    compute_circle_intersection_area 0 5 3 = 0 ∧ ¬ ((0:ℝ) + 5 ≤ 3) := by
  constructor
  · unfold compute_circle_intersection_area
    rw [if_neg (by norm_num), if_pos (by rw [show |(5:ℝ) - 0| = 5 by simp]; norm_num)]
    rw [min_eq_left (by norm_num : (0:ℝ) ≤ 5)]
    norm_num
  · norm_num

/-- C1 (amended): for all `r1, r2, d ≥ 0` the circle-circle intersection area
lies in `[0, π·min(r1,r2)²]` — in particular it is never negative, and no NaN
can arise in the real-number model; when additionally `min(r1,r2) > 0`, it
returns 0 exactly when `d ≥ r1 + r2` and returns `π·min(r1,r2)²` exactly when
`d ≤ |r1 - r2|`.  (When `min(r1,r2) = 0` the function returns 0 for every
`d`, so the two "exactly when" clauses of the original claim fail; see the
counterexample.) -/
theorem C1_theorem (r1 r2 d : ℝ) (_hr1 : 0 ≤ r1) (_hr2 : 0 ≤ r2) (_hd : 0 ≤ d) :
    (0 ≤ compute_circle_intersection_area r1 r2 d ∧
      compute_circle_intersection_area r1 r2 d ≤ Real.pi * min r1 r2 ^ 2) ∧
    (0 < min r1 r2 →
      ((compute_circle_intersection_area r1 r2 d = 0 ↔ r1 + r2 ≤ d) ∧
        (compute_circle_intersection_area r1 r2 d = Real.pi * min r1 r2 ^ 2 ↔
          d ≤ |r1 - r2|))) :=
  ⟨area_nonneg_and_le r1 r2 d,
    fun hmin => ⟨area_eq_zero_iff hmin, area_eq_min_iff hmin⟩⟩

/-- Witness for C1 at `r1 = 3, r2 = 4, d = 10` (disjoint circles). -/
theorem C1_witness :
    ((0:ℝ) ≤ 3 ∧ (0:ℝ) ≤ 4 ∧ (0:ℝ) ≤ 10) ∧
    ((0 ≤ compute_circle_intersection_area 3 4 10 ∧
      compute_circle_intersection_area 3 4 10 ≤ Real.pi * min 3 4 ^ 2) ∧
    (0 < min (3:ℝ) 4 →
      ((compute_circle_intersection_area 3 4 10 = 0 ↔ (3:ℝ) + 4 ≤ 10) ∧
        (compute_circle_intersection_area 3 4 10 = Real.pi * min 3 4 ^ 2 ↔
          (10:ℝ) ≤ |3 - 4|)))) :=
  ⟨⟨by norm_num, by norm_num, by norm_num⟩,
    C1_theorem 3 4 10 (by norm_num) (by norm_num) (by norm_num)⟩

/-- C2 counterexample: with explosion radius 60 and target radius `1/2000`
(whose body area `π/2000² < 1e-6` falls below the area threshold), the damage
at distance 50 is 0 while at the strictly larger distance 57 it is 20 — the
near-miss branch fires — so the damage is not monotonically non-increasing in
the distance. -/
theorem C2_counterexample :
    (50:ℝ) < 57 ∧
    compute_explosion_damage ⟨0, 0⟩ 60 ⟨50, 0⟩ (1 / 2000) = 0 ∧
    compute_explosion_damage ⟨0, 0⟩ 60 ⟨57, 0⟩ (1 / 2000) = 20 := by
  refine ⟨by norm_num, ?_, ?_⟩
  · unfold compute_explosion_damage
    dsimp only
    rw [show Real.sqrt (((0:ℝ) - 50) ^ 2 + ((0:ℝ) - 0) ^ 2) = 50 by
      rw [show ((0:ℝ) - 50) ^ 2 + ((0:ℝ) - 0) ^ 2 = 50 ^ 2 by norm_num]
      exact Real.sqrt_sq (by norm_num)]
    rw [show compute_circle_intersection_area (1 / 2000) 60 50
        = Real.pi * (1 / 2000) ^ 2 by
      unfold compute_circle_intersection_area
      rw [if_neg (by norm_num), if_pos (by
        rw [abs_of_pos (by norm_num : (0:ℝ) < 60 - 1 / 2000)]; norm_num)]
      rw [min_eq_left (by norm_num : (1:ℝ) / 2000 ≤ 60)]]
    rw [if_pos (by linarith [Real.pi_lt_four])]
    rw [if_neg]
    rintro ⟨-, habs⟩
    rw [abs_of_neg (by norm_num : (50:ℝ) - (60 + 1 / 2000) < 0)] at habs
    norm_num at habs
  · unfold compute_explosion_damage
    dsimp only
    rw [show Real.sqrt (((0:ℝ) - 57) ^ 2 + ((0:ℝ) - 0) ^ 2) = 57 by
      rw [show ((0:ℝ) - 57) ^ 2 + ((0:ℝ) - 0) ^ 2 = 57 ^ 2 by norm_num]
      exact Real.sqrt_sq (by norm_num)]
    rw [show compute_circle_intersection_area (1 / 2000) 60 57
        = Real.pi * (1 / 2000) ^ 2 by
      unfold compute_circle_intersection_area
      rw [if_neg (by norm_num), if_pos (by
        rw [abs_of_pos (by norm_num : (0:ℝ) < 60 - 1 / 2000)]; norm_num)]
      rw [min_eq_left (by norm_num : (1:ℝ) / 2000 ≤ 60)]]
    rw [if_pos (by linarith [Real.pi_lt_four])]
    rw [if_pos]
    constructor
    · norm_num
    · rw [abs_of_neg (by norm_num : (57:ℝ) - (60 + 1 / 2000) < 0)]
      norm_num

/-- C2 (amended): for every explosion center, explosion radius, target center
and target radius the damage lies in `[0, 90]`, and, holding the radii fixed,
the underlying circle-intersection area is monotonically non-increasing in
the distance.  The damage itself is not monotone in the distance in general:
when `π·targetRadius² < 1e-6`, the near-miss branch awards 20 at a larger
distance where a nearer target receives 0 (see the counterexample). -/
theorem C2_theorem (er pr : ℝ) :
    (∀ ec pc, 0 ≤ compute_explosion_damage ec er pc pr ∧
      compute_explosion_damage ec er pc pr ≤ 90) ∧
    AntitoneOn (fun d => compute_circle_intersection_area pr er d) (Set.Ici 0) :=
  ⟨fun ec pc => damage_mem ec er pc pr, area_antitoneOn pr er⟩

/-- C6: whenever the bullet's y exceeds the screen height the collision check
resolves as "ground" — unconditionally on buildings, gorillas and craters,
since the ground and wall checks run before the gorilla and building
checks. -/
theorem C6_theorem (b : Bullet) (buildings : List Building)
    (gorillas : Fin 2 → Gorilla) (dc : List DestroyedCircle)
    (h : SCREEN_HEIGHT < b.y) :
    check_collision b buildings gorillas dc = (some ⟨.ground, b.x, SCREEN_HEIGHT⟩, dc) := by
  unfold check_collision
  rw [if_pos h]

/-- Witness for C6: a bullet below the bottom edge whose box also overlaps
both a full-screen building and a gorilla at the same spot still resolves as
"ground". -/
theorem C6_witness :
    check_collision ⟨100, 2000, 0, 0, 1, 0⟩ [⟨0, 1920, 3000⟩]
        (fun _ => Gorilla.make 100 2000) [] =
      (some ⟨.ground, 100, SCREEN_HEIGHT⟩, []) :=
  C6_theorem _ _ _ _ (by unfold SCREEN_HEIGHT; norm_num)

/-- C7: a bullet overlapping a building while its impact point (the bullet
center) already lies inside a recorded crater produces no resolution from
that building and appends no crater: the loop proceeds to the subsequent
buildings with the crater list unchanged, and with no further buildings the
result is no collision at all. -/
lemma buildingLoop_nil (b : Bullet) (isImmune : Prop) (fIdx : Option ℕ)
    (dc : List DestroyedCircle) (idx : ℕ) :
    buildingLoop b isImmune fIdx dc [] idx = (none, dc) := rfl

lemma buildingLoop_cons (b : Bullet) (isImmune : Prop) (fIdx : Option ℕ)
    (dc : List DestroyedCircle) (bld : Building) (rest : List Building) (idx : ℕ) :
    buildingLoop b isImmune fIdx dc (bld :: rest) idx =
      if rectOverlap (bulletRect b) bld.get_rect then
        if bld.get_rect.y ≤ b.y ∧ b.y ≤ SCREEN_HEIGHT then
          if isImmune ∧ fIdx = some idx then
            buildingLoop b isImmune fIdx dc rest (idx + 1)
          else if ¬ is_point_destroyed dc b.x b.y then
            (some ⟨.building, b.x, b.y⟩, dc ++ [⟨b.x, b.y, DESTROYED_CIRCLE_SIZE⟩])
          else buildingLoop b isImmune fIdx dc rest (idx + 1)
        else buildingLoop b isImmune fIdx dc rest (idx + 1)
      else buildingLoop b isImmune fIdx dc rest (idx + 1) := rfl

/-- C7: a bullet overlapping a building while its impact point (the bullet
center) already lies inside a recorded crater produces no resolution from
that building and appends no crater: the loop proceeds to the subsequent
buildings with the crater list unchanged, and with no further buildings the
result is no collision at all. -/
theorem C7_theorem (b : Bullet) (isImmune : Prop) (fIdx : Option ℕ)
    (dc : List DestroyedCircle) (bld : Building) (rest : List Building) (idx : ℕ)
    (hover : rectOverlap (bulletRect b) bld.get_rect)
    (hdestroyed : is_point_destroyed dc b.x b.y) :
    buildingLoop b isImmune fIdx dc (bld :: rest) idx =
      buildingLoop b isImmune fIdx dc rest (idx + 1) ∧
    buildingLoop b isImmune fIdx dc [bld] idx = (none, dc) := by
  have key : ∀ (r : List Building) (j : ℕ),
      buildingLoop b isImmune fIdx dc (bld :: r) j =
        buildingLoop b isImmune fIdx dc r (j + 1) := by
    intro r j
    rw [buildingLoop_cons, if_pos hover]
    by_cases hn : bld.get_rect.y ≤ b.y ∧ b.y ≤ SCREEN_HEIGHT
    · rw [if_pos hn]
      by_cases hi : isImmune ∧ fIdx = some j
      · rw [if_pos hi]
      · rw [if_neg hi, if_neg (not_not_intro hdestroyed)]
    · rw [if_neg hn]
  refine ⟨key rest idx, ?_⟩
  rw [key [] idx, buildingLoop_nil]

/-- Witness for C7: concrete bullet, building and crater. -/
theorem C7_witness :
    buildingLoop ⟨100, 900, 0, 0, 1, 0⟩ False none [⟨100, 900, 60⟩]
        [⟨90, 64, 200⟩] 0 = (none, [⟨100, 900, 60⟩]) := by
  have h := C7_theorem ⟨100, 900, 0, 0, 1, 0⟩ False none [⟨100, 900, 60⟩]
    ⟨90, 64, 200⟩ [] 0
    (by
      norm_num [rectOverlap, bulletRect, Building.get_rect, BULLET_SIZE, SCREEN_HEIGHT])
    ⟨⟨100, 900, 60⟩, by norm_num, by norm_num⟩
  exact h.2

lemma buildingLoop_kind (b : Bullet) (isImmune : Prop) (fIdx : Option ℕ) :
    ∀ (bl : List Building) (idx : ℕ) (dc dc' : List DestroyedCircle) (h : Hit),
      buildingLoop b isImmune fIdx dc bl idx = (some h, dc') →
      h.kind = HitKind.building := by
  intro bl
  induction bl with
  | nil =>
    intro idx dc dc' h hEq
    rw [buildingLoop_nil] at hEq
    simp at hEq
  | cons bld rest ih =>
    intro idx dc dc' h hEq
    rw [buildingLoop_cons] at hEq
    by_cases hov : rectOverlap (bulletRect b) bld.get_rect
    · rw [if_pos hov] at hEq
      by_cases hn : bld.get_rect.y ≤ b.y ∧ b.y ≤ SCREEN_HEIGHT
      · rw [if_pos hn] at hEq
        by_cases hi : isImmune ∧ fIdx = some idx
        · rw [if_pos hi] at hEq
          exact ih _ _ _ _ hEq
        · rw [if_neg hi] at hEq
          by_cases hdp : is_point_destroyed dc b.x b.y
          · rw [if_neg (not_not_intro hdp)] at hEq
            exact ih _ _ _ _ hEq
          · rw [if_pos hdp] at hEq
            rw [Prod.mk.injEq] at hEq
            obtain ⟨hh, -⟩ := hEq
            injection hh with hh2
            rw [← hh2]
      · rw [if_neg hn] at hEq
        exact ih _ _ _ _ hEq
    · rw [if_neg hov] at hEq
      exact ih _ _ _ _ hEq

lemma gorillaHit_inv (b : Bullet) (i : Fin 2) (g : Gorilla) (imm : Prop)
    (dc : List DestroyedCircle) (r : Hit × List DestroyedCircle)
    (h : gorillaHit b i g imm dc = some r) :
    r.1 = ⟨.direct i, b.x, b.y⟩ ∧ (i ≠ b.firingGorillaIndex → r.2 = dc) := by
  unfold gorillaHit at h
  split_ifs at h with h1 h2 h3
  · injection h with h4
    subst h4
    exact ⟨rfl, fun hne => absurd h3 hne⟩
  · injection h with h4
    subst h4
    exact ⟨rfl, fun _ => rfl⟩

/-- Resolving a direct hit on a gorilla other than the firer never appends a
crater: every return path of `check_collision` that yields such a hit leaves
the crater list unchanged. -/
lemma check_collision_direct_opp_dc (b : Bullet) (bs : List Building)
    (gs : Fin 2 → Gorilla) (dc dc' : List DestroyedCircle) (j : Fin 2) (hx hy : ℝ)
    (hne : j ≠ b.firingGorillaIndex)
    (hEq : check_collision b bs gs dc = (some ⟨.direct j, hx, hy⟩, dc')) :
    dc' = dc := by
  unfold check_collision at hEq
  dsimp only at hEq
  by_cases hg : SCREEN_HEIGHT < b.y
  · rw [if_pos hg] at hEq
    simp at hEq
  · rw [if_neg hg] at hEq
    by_cases hw : b.x < 0 ∨ SCREEN_WIDTH < b.x
    · rw [if_pos hw] at hEq
      simp at hEq
    · rw [if_neg hw] at hEq
      rcases h0 : gorillaHit b 0 (gs 0) (b.timeAlive < BULLET_IMMUNITY_DURATION) dc
        with - | r0
      · rw [h0] at hEq
        dsimp only at hEq
        rcases h1 : gorillaHit b 1 (gs 1) (b.timeAlive < BULLET_IMMUNITY_DURATION) dc
          with - | r1
        · rw [h1] at hEq
          dsimp only at hEq
          have hk := buildingLoop_kind b _ _ _ _ _ _ _ hEq
          simp at hk
        · rw [h1] at hEq
          dsimp only at hEq
          obtain ⟨ha, hb⟩ := gorillaHit_inv b 1 (gs 1) _ dc r1 h1
          rw [Prod.mk.injEq] at hEq
          obtain ⟨e1, e2⟩ := hEq
          injection e1 with e1'
          have h11 : (1 : Fin 2) ≠ b.firingGorillaIndex := by
            have : HitKind.direct 1 = HitKind.direct j := by
              have := ha.symm.trans e1'
              exact congrArg Hit.kind this
            injection this with hj
            rwa [← hj] at hne
          rw [← e2]
          exact hb h11
      · rw [h0] at hEq
        dsimp only at hEq
        obtain ⟨ha, hb⟩ := gorillaHit_inv b 0 (gs 0) _ dc r0 h0
        rw [Prod.mk.injEq] at hEq
        obtain ⟨e1, e2⟩ := hEq
        injection e1 with e1'
        have h00 : (0 : Fin 2) ≠ b.firingGorillaIndex := by
          have : HitKind.direct 0 = HitKind.direct j := by
            have := ha.symm.trans e1'
            exact congrArg Hit.kind this
          injection this with hj
          rwa [← hj] at hne
        rw [← e2]
        exact hb h00

/-- C3: a resolved direct hit on the opponent applies exactly 100 damage to
the struck gorilla (fatal: its clamped health is 0 whenever the previous
health was at most 100), leaves the other gorilla's record untouched, leaves
the crater list untouched, and the collision resolution that produced the
hit appended no crater either. -/
theorem C3_theorem (s : GameState) (i : Fin 2) (x y : ℝ)
    (hopp : i ≠ s.turn)
    (hle : (s.gorillas i).health ≤ 100)
    (hother : 0 ≤ (s.gorillas (1 - i)).health) :
    ((applyHitDamage ⟨.direct i, x, y⟩ s).gorillas i).health
        = (s.gorillas i).health - 100 ∧
    ((handle_bullet_hit ⟨.direct i, x, y⟩ s).gorillas i).health = 0 ∧
    (handle_bullet_hit ⟨.direct i, x, y⟩ s).gorillas (1 - i) = s.gorillas (1 - i) ∧
    (handle_bullet_hit ⟨.direct i, x, y⟩ s).destroyed = s.destroyed ∧
    (∀ (b : Bullet) (bs : List Building) (gs : Fin 2 → Gorilla)
        (dc dc' : List DestroyedCircle) (j : Fin 2) (hx hy : ℝ),
      j ≠ b.firingGorillaIndex →
      check_collision b bs gs dc = (some ⟨.direct j, hx, hy⟩, dc') → dc' = dc) := by
  have happly : ∀ k, (applyHitDamage ⟨.direct i, x, y⟩ s).gorillas k =
      if k = i then { s.gorillas i with health := (s.gorillas i).health - 100 }
      else s.gorillas k := by
    intro k
    unfold applyHitDamage
    dsimp only
    by_cases hk : k = i
    · subst hk
      rw [if_pos rfl, Function.update_same]
    · rw [if_neg hk, Function.update_noteq hk]
  refine ⟨?_, ?_, ?_, ?_, fun b bs gs dc dc' j hx hy hne hEq =>
    check_collision_direct_opp_dc b bs gs dc dc' j hx hy hne hEq⟩
  · rw [happly i, if_pos rfl]
  · rw [handle_bullet_hit_gorillas, clampHealths_health, happly i, if_pos rfl]
    exact max_eq_left (by dsimp only; linarith)
  · rw [handle_bullet_hit_gorillas, clampHealths_keeps]
    · rw [happly (1 - i), if_neg (fin_two_one_sub_ne i)]
    · rw [happly (1 - i), if_neg (fin_two_one_sub_ne i)]
      exact hother
  · rw [handle_bullet_hit_destroyed]
    exact applyHitDamage_destroyed_of_direct i x y s

/-- A concrete game state used by witnesses: empty skyline, both gorillas
fresh, player 0 to move. -/
def sampleState : GameState :=
  { buildings := []
    gorillas := fun _ => Gorilla.make 0 0
    bullet := none
    turn := 0
    angles := fun i => if i = 0 then 45 else 135
    strengths := fun _ => 100
    scores := fun _ => 0
    shots_fired := fun _ => 0
    destroyed := []
    gameOver := false
    pendingReset := none }

/-- Witness for C3: direct hit on player 1 while player 0 is shooting. -/
theorem C3_witness :
    ((applyHitDamage ⟨.direct 1, 5, 6⟩ sampleState).gorillas 1).health
        = (sampleState.gorillas 1).health - 100 ∧
    ((handle_bullet_hit ⟨.direct 1, 5, 6⟩ sampleState).gorillas 1).health = 0 ∧
    (handle_bullet_hit ⟨.direct 1, 5, 6⟩ sampleState).gorillas (1 - 1)
      = sampleState.gorillas (1 - 1) ∧
    (handle_bullet_hit ⟨.direct 1, 5, 6⟩ sampleState).destroyed
      = sampleState.destroyed := by
  have h := C3_theorem sampleState 1 5 6 (by decide)
    (by norm_num [sampleState, Gorilla.make])
    (by norm_num [sampleState, Gorilla.make])
  exact ⟨h.1, h.2.1, h.2.2.1, h.2.2.2.1⟩

/-- C5: with the bullet in bounds, overlapping its own firer and nothing
else, an overlap within the immunity window yields no collision result at
all, while the same overlap at or after the immunity deadline resolves as a
direct hit on the firer (recording the self-hit crater), which is fatal:
handling it drives the firer's health to 0 whenever it was at most 100. -/
theorem C5_theorem (b : Bullet) (gorillas : Fin 2 → Gorilla)
    (dc : List DestroyedCircle)
    (hg : ¬ (SCREEN_HEIGHT < b.y)) (hw : ¬ (b.x < 0 ∨ SCREEN_WIDTH < b.x))
    (hover : rectOverlap (bulletRect b) (gorillas b.firingGorillaIndex).get_rect)
    (hother : ¬ rectOverlap (bulletRect b)
      (gorillas (1 - b.firingGorillaIndex)).get_rect) :
    (b.timeAlive < BULLET_IMMUNITY_DURATION →
      check_collision b [] gorillas dc = (none, dc)) ∧
    (BULLET_IMMUNITY_DURATION ≤ b.timeAlive →
      check_collision b [] gorillas dc =
        (some ⟨.direct b.firingGorillaIndex, b.x, b.y⟩,
          dc ++ [⟨b.x, b.y, DESTROYED_CIRCLE_SIZE⟩]) ∧
      ∀ (s : GameState), (s.gorillas b.firingGorillaIndex).health ≤ 100 →
        ((handle_bullet_hit ⟨.direct b.firingGorillaIndex, b.x, b.y⟩ s).gorillas
          b.firingGorillaIndex).health = 0) := by
  have h10 : (1 : Fin 2) - 0 = 1 := rfl
  have h11 : (1 : Fin 2) - 1 = 0 := rfl
  have hfatal : ∀ (k : Fin 2) (hx hy : ℝ) (s : GameState),
      (s.gorillas k).health ≤ 100 →
      ((handle_bullet_hit ⟨.direct k, hx, hy⟩ s).gorillas k).health = 0 := by
    intro k hx hy s hle
    rw [handle_bullet_hit_gorillas, clampHealths_health]
    have e : (applyHitDamage ⟨.direct k, hx, hy⟩ s).gorillas k =
        { s.gorillas k with health := (s.gorillas k).health - 100 } := by
      unfold applyHitDamage
      dsimp only
      rw [Function.update_same]
    rw [e]
    exact max_eq_left (by dsimp only; linarith)
  constructor
  · intro himm
    unfold check_collision
    dsimp only
    rw [if_neg hg, if_neg hw]
    rcases fin_two_eq_zero_or_one b.firingGorillaIndex with hf | hf
    · have hov0 := hover; rw [hf] at hov0
      have hot1 := hother; rw [hf, h10] at hot1
      have e0 : gorillaHit b 0 (gorillas 0)
          (b.timeAlive < BULLET_IMMUNITY_DURATION) dc = none := by
        unfold gorillaHit
        rw [if_pos hov0, if_pos ⟨hf.symm, himm⟩]
      have e1 : gorillaHit b 1 (gorillas 1)
          (b.timeAlive < BULLET_IMMUNITY_DURATION) dc = none := by
        unfold gorillaHit
        rw [if_neg hot1]
      rw [e0]
      dsimp only
      rw [e1]
      dsimp only
      exact buildingLoop_nil _ _ _ _ _
    · have hov1 := hover; rw [hf] at hov1
      have hot0 := hother; rw [hf, h11] at hot0
      have e0 : gorillaHit b 0 (gorillas 0)
          (b.timeAlive < BULLET_IMMUNITY_DURATION) dc = none := by
        unfold gorillaHit
        rw [if_neg hot0]
      have e1 : gorillaHit b 1 (gorillas 1)
          (b.timeAlive < BULLET_IMMUNITY_DURATION) dc = none := by
        unfold gorillaHit
        rw [if_pos hov1, if_pos ⟨hf.symm, himm⟩]
      rw [e0]
      dsimp only
      rw [e1]
      dsimp only
      exact buildingLoop_nil _ _ _ _ _
  · intro himm
    have hnimm : ¬ (b.timeAlive < BULLET_IMMUNITY_DURATION) := not_lt.mpr himm
    constructor
    · unfold check_collision
      dsimp only
      rw [if_neg hg, if_neg hw]
      rcases fin_two_eq_zero_or_one b.firingGorillaIndex with hf | hf
      · have hov0 := hover; rw [hf] at hov0
        have e0 : gorillaHit b 0 (gorillas 0)
            (b.timeAlive < BULLET_IMMUNITY_DURATION) dc =
            some (⟨.direct 0, b.x, b.y⟩, dc ++ [⟨b.x, b.y, DESTROYED_CIRCLE_SIZE⟩]) := by
          unfold gorillaHit
          rw [if_pos hov0, if_neg (fun hc => hnimm hc.2), if_pos hf.symm]
        rw [e0]
        dsimp only
        rw [hf]
      · have hov1 := hover; rw [hf] at hov1
        have hot0 := hother; rw [hf, h11] at hot0
        have e0 : gorillaHit b 0 (gorillas 0)
            (b.timeAlive < BULLET_IMMUNITY_DURATION) dc = none := by
          unfold gorillaHit
          rw [if_neg hot0]
        have e1 : gorillaHit b 1 (gorillas 1)
            (b.timeAlive < BULLET_IMMUNITY_DURATION) dc =
            some (⟨.direct 1, b.x, b.y⟩, dc ++ [⟨b.x, b.y, DESTROYED_CIRCLE_SIZE⟩]) := by
          unfold gorillaHit
          rw [if_pos hov1, if_neg (fun hc => hnimm hc.2), if_pos hf.symm]
        rw [e0]
        dsimp only
        rw [e1]
        dsimp only
        rw [hf]
    · intro s hle
      exact hfatal _ _ _ s hle

/-- Witness for C5 (immune case): a just-fired bullet sitting inside its
firer produces no collision. -/
theorem C5_witness :
    check_collision ⟨500, 500, 0, 0, 0, 0⟩ []
      (fun i => if i = 0 then Gorilla.make 500 500 else Gorilla.make 1500 500) [] =
      (none, []) := by
  have h := C5_theorem ⟨500, 500, 0, 0, 0, 0⟩
    (fun i => if i = 0 then Gorilla.make 500 500 else Gorilla.make 1500 500) []
    (by norm_num [SCREEN_HEIGHT])
    (by norm_num [SCREEN_WIDTH])
    (by norm_num [rectOverlap, bulletRect, Gorilla.get_rect, Gorilla.make,
      BULLET_SIZE, GORILLA_RADIUS])
    (by norm_num [rectOverlap, bulletRect, Gorilla.get_rect, Gorilla.make,
      BULLET_SIZE, GORILLA_RADIUS])
  exact h.1 (by norm_num [BULLET_IMMUNITY_DURATION])

/-- C8: if a hit leaves both gorillas at or below 0 health, the winner is the
non-shooter `1 - turn`: that player's score is incremented by one, updates
pause, a reset carrying this winner is scheduled, and the subsequent
`reset_game` hands the first turn of the new round to the loser — the
shooter. -/
theorem C8_theorem (s : GameState) (hit : Hit)
    (h0 : ((applyHitDamage hit s).gorillas 0).health ≤ 0)
    (h1 : ((applyHitDamage hit s).gorillas 1).health ≤ 0) :
    (handle_bullet_hit hit s).pendingReset = some (some (1 - s.turn)) ∧
    (handle_bullet_hit hit s).scores (1 - s.turn) = s.scores (1 - s.turn) + 1 ∧
    (handle_bullet_hit hit s).gameOver = true ∧
    ∀ (nb : List Building) (ng : Fin 2 → Gorilla),
      (reset_game (some (1 - s.turn)) nb ng (handle_bullet_hit hit s)).turn = s.turn := by
  obtain ⟨hp, hs, hgo⟩ := handle_bullet_hit_both_dead hit s h0 h1
  refine ⟨hp, ?_, hgo, ?_⟩
  · rw [hs, Function.update_same]
  · intro nb ng
    unfold reset_game
    dsimp only
    exact fin_two_one_sub_one_sub s.turn

/-- Witness for C8: player 1 fires a direct hit that finishes player 1
itself while player 0 already sits at 0 health. -/
theorem C8_witness :
    (handle_bullet_hit ⟨.direct 1, 3, 4⟩
        { sampleState with
          gorillas := fun i => if i = 0 then ⟨0, 0, 0, 20⟩ else ⟨0, 0, 60, 20⟩,
          turn := 1 }).pendingReset = some (some (1 - (1 : Fin 2))) := by
  have h := C8_theorem
    { sampleState with
      gorillas := fun i => if i = 0 then ⟨0, 0, 0, 20⟩ else ⟨0, 0, 60, 20⟩,
      turn := 1 }
    ⟨.direct 1, 3, 4⟩
    (by
      unfold applyHitDamage
      dsimp only
      rw [Function.update_noteq (by decide)]
      norm_num)
    (by
      unfold applyHitDamage
      dsimp only
      rw [Function.update_same]
      norm_num)
  exact h.1

/-- C9: the single-bullet discipline of the turn machine — firing is a no-op
whenever a bullet is already in flight or the round is over; an accepted
fire command spawns exactly one bullet, offset from the firer along the aim
direction, and bumps exactly the firer's shot counter by one; and a bullet
whose collision resolves is removed from the state in the same tick. -/
theorem C9_theorem (s : GameState) :
    (s.bullet.isSome ∨ s.gameOver = true → shoot s = s) ∧
    (s.bullet = none → s.gameOver = false →
      (shoot s).bullet = some (Bullet.make
        ((s.gorillas s.turn).x + (GORILLA_RADIUS + BULLET_SIZE / 2 + 5) *
          Real.cos (s.angles s.turn * Real.pi / 180))
        ((s.gorillas s.turn).y + -(GORILLA_RADIUS + BULLET_SIZE / 2 + 5) *
          Real.sin (s.angles s.turn * Real.pi / 180))
        (s.angles s.turn) (s.strengths s.turn) s.turn) ∧
      (shoot s).shots_fired s.turn = s.shots_fired s.turn + 1 ∧
      (∀ j : Fin 2, j ≠ s.turn → (shoot s).shots_fired j = s.shots_fired j)) ∧
    (∀ (dt : ℝ) (b : Bullet) (hit : Hit) (dc' : List DestroyedCircle),
      s.bullet = some b → s.gameOver = false →
      check_collision (b.update dt) s.buildings s.gorillas s.destroyed
        = (some hit, dc') →
      (update_bullet_step dt s).bullet = none) := by
  refine ⟨?_, ?_, ?_⟩
  · intro h
    unfold shoot
    rw [if_pos h]
  · intro hb hgo
    unfold shoot
    rw [if_neg (by simp [hb, hgo])]
    refine ⟨rfl, ?_, ?_⟩
    · dsimp only
      rw [Function.update_same]
    · intro j hj
      dsimp only
      rw [Function.update_noteq hj]
  · intro dt b hit dc' hb hgo hcc
    unfold update_bullet_step
    rw [if_neg (by simp [hgo]), hb]
    dsimp only
    rw [hcc]

/-- Witness for C9: firing during the inter-round pause is a no-op. -/
theorem C9_witness :
    shoot { sampleState with gameOver := true } = { sampleState with gameOver := true } :=
  (C9_theorem { sampleState with gameOver := true }).1 (Or.inr rfl)

/-- C10: health stays in [0, 100] across hit handling — a fresh gorilla
starts at 100, handling a hit never increases a health value (damage only
subtracts), negative intermediate values are clamped to 0, and a gorilla
already at 0 is skipped by the explosion-damage pass of a building hit. -/
theorem C10_theorem (s : GameState) (hit : Hit)
    (hinv : ∀ i : Fin 2, 0 ≤ (s.gorillas i).health ∧ (s.gorillas i).health ≤ 100) :
    (∀ x y : ℝ, (Gorilla.make x y).health = 100) ∧
    (∀ i : Fin 2, 0 ≤ ((handle_bullet_hit hit s).gorillas i).health ∧
      ((handle_bullet_hit hit s).gorillas i).health ≤ 100) ∧
    (∀ i : Fin 2, ((handle_bullet_hit hit s).gorillas i).health
      ≤ (s.gorillas i).health) ∧
    (hit.kind = HitKind.building → ∀ i : Fin 2, (s.gorillas i).health = 0 →
      ((handle_bullet_hit hit s).gorillas i).health = 0) := by
  obtain ⟨k, x, y⟩ := hit
  have hle : ∀ i : Fin 2,
      ((applyHitDamage ⟨k, x, y⟩ s).gorillas i).health ≤ (s.gorillas i).health := by
    intro i
    cases k with
    | direct t =>
      unfold applyHitDamage
      dsimp only
      by_cases hi : i = t
      · subst hi
        rw [Function.update_same]
        dsimp only
        linarith
      · rw [Function.update_noteq hi]
    | building =>
      unfold applyHitDamage
      dsimp only
      split_ifs with h1 h2
      · exact le_refl _
      · dsimp only
        linarith
      · exact le_refl _
    | ground => exact le_refl _
    | wall => exact le_refl _
  have hskip : k = HitKind.building → ∀ i : Fin 2, (s.gorillas i).health = 0 →
      ((applyHitDamage ⟨k, x, y⟩ s).gorillas i).health = 0 := by
    intro hk i h0
    subst hk
    unfold applyHitDamage
    dsimp only
    rw [if_pos (le_of_eq h0)]
    exact h0
  refine ⟨fun x' y' => rfl, ?_, ?_, ?_⟩
  · intro i
    rw [handle_bullet_hit_gorillas, clampHealths_health]
    exact ⟨le_max_left _ _, max_le (by norm_num) (le_trans (hle i) (hinv i).2)⟩
  · intro i
    rw [handle_bullet_hit_gorillas, clampHealths_health]
    exact max_le (hinv i).1 (hle i)
  · intro hk i h0
    rw [handle_bullet_hit_gorillas, clampHealths_health, hskip hk i h0]
    norm_num

/-- Witness for C10: a wall hit on the fresh sample state keeps both healths
in range. -/
theorem C10_witness :
    (∀ x y : ℝ, (Gorilla.make x y).health = 100) ∧
    (∀ i : Fin 2, 0 ≤ ((handle_bullet_hit ⟨.wall, 1, 2⟩ sampleState).gorillas i).health ∧
      ((handle_bullet_hit ⟨.wall, 1, 2⟩ sampleState).gorillas i).health ≤ 100) ∧
    (∀ i : Fin 2, ((handle_bullet_hit ⟨.wall, 1, 2⟩ sampleState).gorillas i).health
      ≤ (sampleState.gorillas i).health) ∧
    ((⟨.wall, 1, 2⟩ : Hit).kind = HitKind.building → ∀ i : Fin 2,
      (sampleState.gorillas i).health = 0 →
      ((handle_bullet_hit ⟨.wall, 1, 2⟩ sampleState).gorillas i).health = 0) :=
  C10_theorem sampleState ⟨.wall, 1, 2⟩
    (fun i => by norm_num [sampleState, Gorilla.make])

/-- The C4 scenario: player 0 fires; the bullet (well past the immunity
window, `timeAlive = 1`) sits on top of player 0 at `(100, 500)`; player 1
stands at `(100, 540)`, distance 40 from the impact — fully inside the blast
circle of radius 60. -/
def bugGorillas : Fin 2 → Gorilla :=
  fun i => if i = 0 then Gorilla.make 100 500 else Gorilla.make 100 540

def bugState : GameState := { sampleState with gorillas := bugGorillas }

/-- C4, evaluated at the failing input: the post-immunity self-hit does
append the crater, and the explosion-damage formula at player 1's distance
yields the full 90 — yet handling the resulting "direct" hit leaves player 1
at 100 health (no area-damage pass runs), while player 0 drops to 0.  This
contradicts the claim (and the source's own comments, which say the
self-hit is to be treated like a building hit for damage). -/
theorem C4_theorem :
    check_collision ⟨100, 500, 0, 0, 1, 0⟩ [] bugGorillas [] =
      (some ⟨.direct 0, 100, 500⟩, [⟨100, 500, DESTROYED_CIRCLE_SIZE⟩]) ∧
    compute_explosion_damage ⟨100, 500⟩ DESTROYED_CIRCLE_SIZE ⟨100, 540⟩
      GORILLA_RADIUS = 90 ∧
    ((handle_bullet_hit ⟨.direct 0, 100, 500⟩ bugState).gorillas 1).health = 100 ∧
    ((handle_bullet_hit ⟨.direct 0, 100, 500⟩ bugState).gorillas 0).health = 0 := by
  have hb0 : bugGorillas 0 = Gorilla.make 100 500 := by
    unfold bugGorillas
    rw [if_pos rfl]
  have hb1 : bugGorillas 1 = Gorilla.make 100 540 := by
    unfold bugGorillas
    rw [if_neg (by decide)]
  refine ⟨?_, ?_, ?_, ?_⟩
  · unfold check_collision
    dsimp only
    rw [if_neg (by norm_num [SCREEN_HEIGHT]), if_neg (by norm_num [SCREEN_WIDTH])]
    have e0 : gorillaHit ⟨100, 500, 0, 0, 1, 0⟩ 0 (bugGorillas 0)
        ((1:ℝ) < BULLET_IMMUNITY_DURATION) [] =
        some (⟨.direct 0, 100, 500⟩, [] ++ [⟨100, 500, DESTROYED_CIRCLE_SIZE⟩]) := by
      unfold gorillaHit
      rw [if_pos (by
        rw [hb0]
        norm_num [rectOverlap, bulletRect, Gorilla.get_rect,
          Gorilla.make, BULLET_SIZE, GORILLA_RADIUS])]
      rw [if_neg (fun hc => by norm_num [BULLET_IMMUNITY_DURATION] at hc), if_pos rfl]
    rw [e0]
    dsimp only
    simp
  · show compute_explosion_damage ⟨100, 500⟩ 60 ⟨100, 540⟩ 20 = 90
    unfold compute_explosion_damage
    dsimp only
    rw [show Real.sqrt (((100:ℝ) - 100) ^ 2 + ((500:ℝ) - 540) ^ 2) = 40 by
      rw [show ((100:ℝ) - 100) ^ 2 + ((500:ℝ) - 540) ^ 2 = 40 ^ 2 by norm_num]
      exact Real.sqrt_sq (by norm_num)]
    rw [show compute_circle_intersection_area 20 60 40 = Real.pi * 20 ^ 2 by
      unfold compute_circle_intersection_area
      rw [if_neg (by norm_num),
        if_pos (by rw [show |(60:ℝ) - 20| = 40 by rw [abs_of_pos] <;> norm_num])]
      rw [min_eq_left (by norm_num : (20:ℝ) ≤ 60)]]
    rw [if_neg (by rw [not_lt]; nlinarith [Real.pi_gt_three])]
    rw [if_neg (by rw [not_lt]; nlinarith [Real.pi_gt_three])]
    rw [if_neg (by norm_num)]
    rw [show Real.pi * (20:ℝ) ^ 2 / (Real.pi * 20 ^ 2) = 1 from
      div_self (by positivity)]
    rw [min_eq_right (le_refl 1), max_eq_right (by norm_num : (0:ℝ) ≤ 1)]
    norm_num
  · rw [handle_bullet_hit_gorillas, clampHealths_health]
    have e : (applyHitDamage ⟨.direct 0, 100, 500⟩ bugState).gorillas 1
        = bugState.gorillas 1 := by
      unfold applyHitDamage
      dsimp only
      rw [Function.update_noteq (by decide)]
    rw [e, show bugState.gorillas 1 = Gorilla.make 100 540 from hb1]
    show max 0 (100:ℝ) = 100
    exact max_eq_right (by norm_num)
  · rw [handle_bullet_hit_gorillas, clampHealths_health]
    have e : (applyHitDamage ⟨.direct 0, 100, 500⟩ bugState).gorillas 0
        = { bugState.gorillas 0 with
            health := (bugState.gorillas 0).health - 100 } := by
      unfold applyHitDamage
      dsimp only
      rw [Function.update_same]
    rw [e, show bugState.gorillas 0 = Gorilla.make 100 500 from hb0]
    show max 0 ((100:ℝ) - 100) = 0
    norm_num
